import Mathlib

/-!
Verification of the kwuartboot serial boot loader (src/kwuartboot.c).

The C program is embedded shallowly.  Machine bytes are natural numbers;
the cast to a C unsigned char is an explicit remainder modulo 256.  The
serial channel is modelled as a function from the index of a read to the
result of that read (a byte, a timeout, or a non-timeout channel error);
writes and drains are assumed to succeed and are recorded in an output
event trace.  Each embedded function returns its result together with the
list of output events it emitted and the list of timeout arguments of the
reads it performed (one entry per read, so the length of that list is the
number of bytes it consumed from the channel).  Loops that the C code
bounds only by channel behaviour take an explicit fuel argument and report
fuel exhaustion as a distinguished outcome.  Source read errors on the
input file are not modelled: the file is a plain list of bytes.
-/

namespace Kwuartboot

/-- Protocol control bytes, from the defines at the top of kwuartboot.c. -/
def SOH : Nat := 0x01

def STX : Nat := 0x02

def EOT : Nat := 0x04

def ACK : Nat := 0x06

def NAK : Nat := 0x15

def CAN : Nat := 0x18

def CTRLZ : Nat := 0x1A

/-- PATTERN_SEND_INTERVAL: 50 milliseconds, in microseconds. -/
def PATTERN_SEND_INTERVAL : Nat := 50000

/-- PATTERN_SEND_TIMEOUT: 20 seconds. -/
def PATTERN_SEND_TIMEOUT : Nat := 20

/-- ONE_SECOND_US: one second, in microseconds. -/
def ONE_SECOND_US : Nat := 1000000

/-- RECEIVE_TIMEOUT: 60 seconds, in microseconds. -/
def RECEIVE_TIMEOUT : Nat := 60 * 1000000

/-- MAX_RETRANS: the retransmission bound of the send and finish loops. -/
def MAX_RETRANS : Nat := 10

/-- The boot_pattern array: the fixed 8-byte wake-up sequence. -/
def boot_pattern : List Nat := [0xbb, 0x11, 0x22, 0x33, 0x44, 0x55, 0x66, 0x77]

/-- The cast of a C int value to unsigned char: remainder modulo 256. -/
def uchar (v : Int) : Nat := (v % 256).toNat

/-- Result of one read_byte call on the channel: a byte arrived, the
select timed out (errno ETIMEDOUT), or select or read failed with some
other errno (a non-timeout channel error). -/
inductive ReadEvent where
  | byte (b : Nat)
  | timeout
  | chanError
deriving DecidableEq, Repr

/-- The serial channel, modelled by the result of the n-th read_byte
call performed on it (counting from 0). -/
structure Chan where
  reads : Nat → ReadEvent

/-- A channel whose successive reads deliver the entries of a list and
time out once the list is exhausted. -/
def chanOfList (l : List ReadEvent) : Chan :=
  ⟨fun n => l.getD n ReadEvent.timeout⟩

/-- Observable output actions of the program: a byte written to the
channel (write_byte or write), tcdrain, tcflush, a rotator tick, the
diagnostic for an unexpected byte, and the retrying diagnostic of the
send loop. -/
inductive Ev where
  | wr (b : Nat)
  | drain
  | flush
  | tick
  | unexpectedByte (b : Nat)
  | retrying (r : Nat)
deriving DecidableEq, Repr

/-- The bytes written to the channel, extracted from an event trace. -/
def writtenBytes (l : List Ev) : List Nat :=
  l.filterMap fun e =>
    match e with
    | Ev.wr b => some b
    | _ => none

/-- Embeds read_byte: the n-th read returns the channel event at index
n; an arriving byte is stored into an unsigned char, hence the remainder
modulo 256. -/
def rdByte (ch : Chan) (pos : Nat) : ReadEvent :=
  match ch.reads pos with
  | ReadEvent.byte b => ReadEvent.byte (b % 256)
  | e => e

/-- Embeds cancel_send: write the three-byte CAN CAN CAN cancel array,
then tcdrain, then tcflush (writes and tcdrain are modelled as
succeeding). -/
def cancel_send : List Ev :=
  [Ev.wr CAN, Ev.wr CAN, Ev.wr CAN, Ev.drain, Ev.flush]

/-- Embeds read_block: read up to size bytes from the file at offset
off, zero-fill the remainder of the buffer, and return the number of
bytes actually read together with the padded buffer.  Source read errors
are not modelled. -/
def read_block (file : List Nat) (off size : Nat) : Nat × List Nat :=
  let data := (file.drop off).take size
  (data.length, data ++ List.replicate (size - data.length) 0)

/-- Embeds the checksum loop of build_packet: an unsigned char
accumulator summed over the payload bytes, each addition truncated to a
byte. -/
def chksumOf (payload : List Nat) : Nat :=
  payload.foldl (fun a b => (a + b) % 256) 0

/-- Embeds build_packet.  The header is SOH, the packet number stored
into an unsigned char, and the bitwise complement of that byte: on a
two's-complement int the complement of x is -x - 1, truncated by the
store into the unsigned char packet[2].  The payload comes from
read_block with buflen = 128; a zero-byte read means end of source and
yields none (the res == 1 path).  Otherwise the packet, followed by its
checksum byte, and the advanced file offset are returned. -/
def build_packet (file : List Nat) (off packetno : Nat) :
    Option (List Nat × Nat) :=
  let r := read_block file off 128
  if r.1 = 0 then none
  else
    some (SOH :: (packetno % 256) :: uchar (-((packetno % 256 : Nat) : Int) - 1)
            :: (r.2 ++ [chksumOf r.2]),
          off + r.1)

/-- The write events of send_packet: each packet byte is written through
write_byte (an unsigned char store), and after the byte at every index
divisible by 8 a tcdrain is forced. -/
def pktEvs : List Nat → Nat → List Ev
  | [], _ => []
  | b :: rest, i =>
    Ev.wr (b % 256) :: (if i % 8 = 0 then [Ev.drain] else []) ++ pktEvs rest (i + 1)

/-- Embeds send_packet: write the whole packet (with the interleaved
drains), then read the response with RECEIVE_TIMEOUT.  Write failures
are not modelled, so the returned event is the result of that read. -/
def send_packet (ch : Chan) (p : List Nat) (pos : Nat) :
    ReadEvent × List Ev × List Nat :=
  (rdByte ch pos, pktEvs p 0, [RECEIVE_TIMEOUT])

/-- Result of wait_for_nak: 0 (ok) or -1 (fail). -/
inductive WRes where
  | ok
  | fail
deriving DecidableEq, Repr

/-- Embeds wait_for_nak: read one byte with RECEIVE_TIMEOUT.  A read
failure (timeout or error) fails.  The byte 0x43 (the CRC-mode request)
fails without any output.  NAK succeeds.  CAN triggers one more read
with a one-second timeout: a second CAN is acknowledged with an ACK byte
and fails, anything else (including a failed read) falls out of the
switch and succeeds.  Any other byte runs cancel_send and fails. -/
def wait_for_nak (ch : Chan) (pos : Nat) : WRes × List Ev × List Nat :=
  match rdByte ch pos with
  | ReadEvent.timeout => (WRes.fail, [], [RECEIVE_TIMEOUT])
  | ReadEvent.chanError => (WRes.fail, [], [RECEIVE_TIMEOUT])
  | ReadEvent.byte c =>
    if c = 0x43 then (WRes.fail, [], [RECEIVE_TIMEOUT])
    else if c = NAK then (WRes.ok, [], [RECEIVE_TIMEOUT])
    else if c = CAN then
      match rdByte ch (pos + 1) with
      | ReadEvent.byte c2 =>
        if c2 = CAN then
          (WRes.fail, [Ev.wr ACK], [RECEIVE_TIMEOUT, ONE_SECOND_US])
        else (WRes.ok, [], [RECEIVE_TIMEOUT, ONE_SECOND_US])
      | _ => (WRes.ok, [], [RECEIVE_TIMEOUT, ONE_SECOND_US])
    else (WRes.fail, cancel_send, [RECEIVE_TIMEOUT])

/-- How the send loop of xmodem_send was left: break on end of source
(res == 1 from build_packet), break on a non-timeout channel error from
send_packet, return -1 after a doubled CAN, loop condition exhausted
with retry = MAX_RETRANS, or fuel ran out (model artifact). -/
inductive LoopExit where
  | eofBrk
  | errBrk
  | remoteCancel
  | exhausted
  | fuelOut
deriving DecidableEq, Repr

/-- The register variables of the send loop of xmodem_send: packetno,
lastpacket, the file offset of in_fd, and the contents of the packet
buffer, which persists across iterations so that a retry resends the
identical bytes. -/
structure Regs where
  packetno : Nat
  lastpacket : Nat
  off : Nat
  pkt : List Nat
deriving DecidableEq, Repr

/-- Embeds the main for loop of xmodem_send (for retry = 0; retry <
MAX_RETRANS; retry increment).  Each iteration: rotator tick; if
packetno differs from lastpacket, build a fresh packet (end of source
breaks the loop), otherwise print the retrying diagnostic and keep the
buffer; transmit with send_packet and read the response.  A timeout
continues (the for increment still runs).  A non-timeout error prints a
diagnostic and breaks.  ACK sets retry to 0 (the for increment then
makes it 1) and advances packetno.  CAN reads one more byte with
timeout argument 1 (microseconds); a second CAN is acknowledged with
ACK, drained, and returns -1, anything else falls through and retries.
NAK and any other byte retry; a byte outside the recognized set first
prints the unexpected-character diagnostic. -/
def sendLoop (ch : Chan) (file : List Nat) :
    Nat → Nat → Regs → Nat → LoopExit × List Ev × List Nat
  | 0, retry, _, _ =>
    if retry < MAX_RETRANS then (LoopExit.fuelOut, [], [])
    else (LoopExit.exhausted, [], [])
  | fuel + 1, retry, rg, pos =>
    if retry < MAX_RETRANS then
      match (if rg.packetno ≠ rg.lastpacket then
               (build_packet file rg.off rg.packetno).map
                 (fun po => ((⟨rg.packetno, rg.packetno, po.2, po.1⟩ : Regs),
                             ([] : List Ev)))
             else some (rg, [Ev.retrying retry])) with
      | none => (LoopExit.eofBrk, [Ev.tick], [])
      | some (rg2, bevs) =>
        match send_packet ch rg2.pkt pos with
        | (ReadEvent.chanError, sevs, sts) =>
          (LoopExit.errBrk, Ev.tick :: bevs ++ sevs, sts)
        | (ReadEvent.timeout, sevs, sts) =>
          let rest := sendLoop ch file fuel (retry + 1) rg2 (pos + sts.length)
          (rest.1, Ev.tick :: bevs ++ sevs ++ rest.2.1, sts ++ rest.2.2)
        | (ReadEvent.byte c, sevs, sts) =>
          if c = ACK then
            let rest := sendLoop ch file fuel (0 + 1)
                { rg2 with packetno := rg2.packetno + 1 } (pos + sts.length)
            (rest.1, Ev.tick :: bevs ++ sevs ++ rest.2.1, sts ++ rest.2.2)
          else if c = CAN then
            match rdByte ch (pos + sts.length) with
            | ReadEvent.byte c2 =>
              if c2 = CAN then
                (LoopExit.remoteCancel,
                 Ev.tick :: bevs ++ sevs ++ [Ev.wr ACK, Ev.drain], sts ++ [1])
              else
                let rest := sendLoop ch file fuel (retry + 1) rg2 (pos + sts.length + 1)
                (rest.1, Ev.tick :: bevs ++ sevs ++ rest.2.1, sts ++ 1 :: rest.2.2)
            | _ =>
              let rest := sendLoop ch file fuel (retry + 1) rg2 (pos + sts.length + 1)
              (rest.1, Ev.tick :: bevs ++ sevs ++ rest.2.1, sts ++ 1 :: rest.2.2)
          else
            let uevs := if c = NAK then [] else [Ev.unexpectedByte c]
            let rest := sendLoop ch file fuel (retry + 1) rg2 (pos + sts.length)
            (rest.1, Ev.tick :: bevs ++ sevs ++ uevs ++ rest.2.1, sts ++ rest.2.2)
    else (LoopExit.exhausted, [], [])

/-- Embeds the finishing loop of xmodem_send: up to MAX_RETRANS times,
write EOT, tcdrain, and read one byte with timeout argument 1
(microseconds); the first ACK breaks with success, and exhausting the
loop without an ACK means the final comparison c != ACK fails. -/
def finishLoop (ch : Chan) : Nat → Nat → Bool × List Ev × List Nat
  | 0, _ => (false, [], [])
  | n + 1, pos =>
    match rdByte ch pos with
    | ReadEvent.byte c =>
      if c = ACK then (true, [Ev.wr EOT, Ev.drain], [1])
      else
        let rest := finishLoop ch n (pos + 1)
        (rest.1, Ev.wr EOT :: Ev.drain :: rest.2.1, 1 :: rest.2.2)
    | _ =>
      let rest := finishLoop ch n (pos + 1)
      (rest.1, Ev.wr EOT :: Ev.drain :: rest.2.1, 1 :: rest.2.2)

/-- Overall result of xmodem_send: 0 (ok), -1 (fail), or fuel ran out
(model artifact). -/
inductive XRes where
  | ok
  | fail
  | fuelOut
deriving DecidableEq, Repr

/-- Embeds xmodem_send: wait_for_nak first (its failure fails the
transfer); then the send loop from retry = 0, packetno = 1, lastpacket =
0 (the packet buffer starts uninitialized; it is modelled as zeros and
is always built before first use).  A doubled CAN returns -1.  If the
loop left with retry = MAX_RETRANS, cancel_send runs and the transfer
fails.  Otherwise (break on end of source or on the channel-error
diagnostic) the finishing loop runs and decides ok or fail. -/
def xmodem_send (ch : Chan) (file : List Nat) (fuel : Nat) :
    XRes × List Ev × List Nat :=
  match wait_for_nak ch 0 with
  | (WRes.fail, evs, ts) => (XRes.fail, evs, ts)
  | (WRes.ok, evs, ts) =>
    match sendLoop ch file fuel 0 ⟨1, 0, 0, List.replicate 132 0⟩ ts.length with
    | (LoopExit.fuelOut, evs2, ts2) => (XRes.fuelOut, evs ++ evs2, ts ++ ts2)
    | (LoopExit.remoteCancel, evs2, ts2) => (XRes.fail, evs ++ evs2, ts ++ ts2)
    | (LoopExit.exhausted, evs2, ts2) =>
      (XRes.fail, evs ++ evs2 ++ cancel_send, ts ++ ts2)
    | (LoopExit.eofBrk, evs2, ts2) =>
      let fin := finishLoop ch MAX_RETRANS (ts.length + ts2.length)
      ((if fin.1 then XRes.ok else XRes.fail),
       evs ++ evs2 ++ fin.2.1, ts ++ ts2 ++ fin.2.2)
    | (LoopExit.errBrk, evs2, ts2) =>
      let fin := finishLoop ch MAX_RETRANS (ts.length + ts2.length)
      ((if fin.1 then XRes.ok else XRes.fail),
       evs ++ evs2 ++ fin.2.1, ts ++ ts2 ++ fin.2.2)

/-- Result of the inner read loop of send_boot_pattern: a NAK arrived, a
read timed out (break to the next pattern transmission), a read failed
with a channel error, or fuel ran out (model artifact). -/
inductive InnerRes where
  | nak
  | tmo
  | err
  | fuelOut
deriving DecidableEq, Repr

/-- Embeds the inner read loop of send_boot_pattern: read one byte with
PATTERN_SEND_INTERVAL; a timeout breaks, an error returns -1, NAK sets
done, and any other byte is ignored if it occurs in boot_pattern
(memchr) and otherwise prints the unexpected-byte mark, after which
reading continues. -/
def bootInner (ch : Chan) : Nat → Nat → InnerRes × List Ev × List Nat
  | 0, _ => (InnerRes.fuelOut, [], [])
  | fuel + 1, pos =>
    match rdByte ch pos with
    | ReadEvent.timeout => (InnerRes.tmo, [], [PATTERN_SEND_INTERVAL])
    | ReadEvent.chanError => (InnerRes.err, [], [PATTERN_SEND_INTERVAL])
    | ReadEvent.byte c =>
      if c = NAK then (InnerRes.nak, [], [PATTERN_SEND_INTERVAL])
      else
        let uevs := if boot_pattern.contains c then [] else [Ev.unexpectedByte c]
        let rest := bootInner ch fuel (pos + 1)
        (rest.1, uevs ++ rest.2.1, PATTERN_SEND_INTERVAL :: rest.2.2)

/-- Result of send_boot_pattern: 0 (ready), 1 (overall timeout), -1
(channel failure), or fuel ran out (model artifact). -/
inductive BootRes where
  | ready
  | timedOut
  | chanFail
  | fuelOut
deriving DecidableEq, Repr

/-- The events of one pattern transmission: rotator tick, the eight
pattern bytes, and the tcdrain that waits for them to leave. -/
def patternEvs : List Ev :=
  Ev.tick :: boot_pattern.map Ev.wr ++ [Ev.drain]

/-- Embeds the outer loop of send_boot_pattern.  Each iteration sends
the pattern (transmit events patternEvs) and runs the inner read loop;
afterwards time(NULL) is consulted (call number tcall of the clock) and
an elapsed time beyond the overall timeout returns 1 even when a NAK was
just seen, since the check runs before the while condition. -/
def bootLoop (ch : Chan) (clock : Nat → Nat) (start timeoutS innerFuel : Nat) :
    Nat → Nat → Nat → BootRes × List Ev × List Nat
  | 0, _, _ => (BootRes.fuelOut, [], [])
  | fuel + 1, tcall, pos =>
    match bootInner ch innerFuel pos with
    | (InnerRes.err, evs, ts) => (BootRes.chanFail, patternEvs ++ evs, ts)
    | (InnerRes.fuelOut, evs, ts) => (BootRes.fuelOut, patternEvs ++ evs, ts)
    | (InnerRes.nak, evs, ts) =>
      if clock tcall - start > timeoutS then (BootRes.timedOut, patternEvs ++ evs, ts)
      else (BootRes.ready, patternEvs ++ evs, ts)
    | (InnerRes.tmo, evs, ts) =>
      if clock tcall - start > timeoutS then (BootRes.timedOut, patternEvs ++ evs, ts)
      else
        let rest := bootLoop ch clock start timeoutS innerFuel fuel (tcall + 1)
            (pos + ts.length)
        (rest.1, patternEvs ++ evs ++ rest.2.1, ts ++ rest.2.2)

/-- Embeds send_boot_pattern: note the start time (clock call 0), flush
pending input and output, and run the probe loop; the clock function
gives the successive results of time(NULL). -/
def send_boot_pattern (ch : Chan) (clock : Nat → Nat)
    (timeoutS fuel innerFuel : Nat) : BootRes × List Ev × List Nat :=
  let start := clock 0
  let r := bootLoop ch clock start timeoutS innerFuel fuel 1 0
  (r.1, Ev.flush :: r.2.1, r.2.2)

end Kwuartboot

namespace Kwuartboot

/-! Helper lemmas about the embedded definitions. -/

/-- The unsigned char store always yields a byte below 256. -/
lemma uchar_lt (v : Int) : uchar v < 256 := by
  unfold uchar
  have h1 : (0 : Int) ≤ v % 256 := Int.emod_nonneg v (by norm_num)
  have h2 : v % 256 < 256 := Int.emod_lt_of_pos v (by norm_num)
  have h3 := Int.toNat_of_nonneg h1
  omega

/-- The complement byte stored by build_packet: on a two's-complement
int, the bitwise complement of a byte x, truncated back to a byte, is
255 - x. -/
lemma uchar_neg (n : Nat) (h : n < 256) : uchar (-(n : Int) - 1) = 255 - n := by
  unfold uchar
  have h0 : (-(n : Int) - 1) = (255 - (n : Int)) + 256 * (-1) := by ring
  have h1 : (-(n : Int) - 1) % 256 = 255 - (n : Int) := by
    rw [h0, Int.add_mul_emod_self_left]
    exact Int.emod_eq_of_lt (by omega) (by omega)
  rw [h1]
  have h2 := Int.toNat_of_nonneg (show (0 : Int) ≤ 255 - (n : Int) by omega)
  omega

/-- The unsigned char checksum accumulator computes the sum modulo 256. -/
lemma foldl_mod (l : List Nat) :
    ∀ a : Nat, l.foldl (fun x y => (x + y) % 256) (a % 256) = (a + l.sum) % 256 := by
  induction l with
  | nil => intro a; simp
  | cons b t ih =>
    intro a
    rw [List.foldl_cons]
    have h1 : (a % 256 + b) % 256 = (a + b) % 256 := by omega
    rw [h1, ih (a + b)]
    rw [List.sum_cons]
    omega

lemma chksumOf_eq (l : List Nat) : chksumOf l = l.sum % 256 := by
  have h := foldl_mod l 0
  simpa [chksumOf] using h

/-- The packet returned by build_packet when the source still has bytes
at offset off. -/
def packetOf (file : List Nat) (off n : Nat) : List Nat :=
  SOH :: (n % 256) :: uchar (-((n % 256 : Nat) : Int) - 1)
    :: ((read_block file off 128).2 ++ [chksumOf (read_block file off 128).2])

lemma build_packet_pos (file : List Nat) (off n : Nat) (h : off < file.length) :
    build_packet file off n =
      some (packetOf file off n, off + (read_block file off 128).1) := by
  have hg : ¬ (read_block file off 128).1 = 0 := by
    simp only [read_block, List.length_take, List.length_drop]
    omega
  simp [build_packet, packetOf, hg]

lemma writtenBytes_append (a b : List Ev) :
    writtenBytes (a ++ b) = writtenBytes a ++ writtenBytes b := by
  simp [writtenBytes]

lemma writtenBytes_pktEvs (p : List Nat) :
    ∀ i, writtenBytes (pktEvs p i) = p.map (fun b => b % 256) := by
  induction p with
  | nil => intro i; simp [pktEvs, writtenBytes]
  | cons b t ih =>
    intro i
    by_cases h : i % 8 = 0 <;>
      simp [pktEvs, writtenBytes, h, List.filterMap_append] <;>
      simpa [writtenBytes] using ih (i + 1)

lemma map_mod_of_lt (l : List Nat) (hb : ∀ b ∈ l, b < 256) :
    l.map (fun b => b % 256) = l := by
  induction l with
  | nil => rfl
  | cons b t ih =>
    simp only [List.map_cons]
    rw [Nat.mod_eq_of_lt (hb b (by simp)), ih (fun x hx => hb x (by simp [hx]))]

/-- Every byte of a built packet is below 256 when the file is made of
bytes. -/
lemma packetOf_lt (file : List Nat) (off n : Nat) (hb : ∀ b ∈ file, b < 256) :
    ∀ b ∈ packetOf file off n, b < 256 := by
  intro b hbm
  have hchk : chksumOf (read_block file off 128).2 < 256 := by
    rw [chksumOf_eq]; exact Nat.mod_lt _ (by omega)
  simp only [packetOf, List.mem_cons, List.mem_append] at hbm
  rcases hbm with h | h | h | h | h
  · simp [SOH, h]
  · subst h; exact Nat.mod_lt _ (by omega)
  · subst h; exact uchar_lt _
  · simp only [read_block, List.mem_append] at h
    rcases h with h | h
    · exact hb b (List.mem_of_mem_drop (List.mem_of_mem_take h))
    · have h0 := List.eq_of_mem_replicate h
      omega
  · rcases h with h | h
    · subst h
      exact hchk
    · exact absurd h (List.not_mem_nil b)


/-! Step lemmas for the send loop. -/

/-- When the loop condition fails (retry = MAX_RETRANS after the for
increment), the loop exits as exhausted, whatever the fuel. -/
lemma sendLoop_not_lt (ch : Chan) (file : List Nat) (fuel retry : Nat)
    (rg : Regs) (pos : Nat) (hr : ¬ retry < MAX_RETRANS) :
    sendLoop ch file fuel retry rg pos = (LoopExit.exhausted, [], []) := by
  cases fuel <;> simp [sendLoop, hr]

/-- One resend iteration whose acknowledgment read times out. -/
lemma sendLoop_resend_timeout (ch : Chan) (file : List Nat) (fuel retry : Nat)
    (rg : Regs) (pos : Nat)
    (hr : retry < MAX_RETRANS) (heq : rg.packetno = rg.lastpacket)
    (ht : rdByte ch pos = ReadEvent.timeout) :
    sendLoop ch file (fuel + 1) retry rg pos =
      ((sendLoop ch file fuel (retry + 1) rg (pos + 1)).1,
       Ev.tick :: Ev.retrying retry :: pktEvs rg.pkt 0
         ++ (sendLoop ch file fuel (retry + 1) rg (pos + 1)).2.1,
       RECEIVE_TIMEOUT :: (sendLoop ch file fuel (retry + 1) rg (pos + 1)).2.2) := by
  simp [sendLoop, hr, heq, send_packet, ht]

/-- One fresh-build iteration whose acknowledgment read times out. -/
lemma sendLoop_build_timeout (ch : Chan) (file : List Nat) (fuel retry : Nat)
    (pn lp off0 : Nat) (pk : List Nat) (pos : Nat) (p : List Nat) (off2 : Nat)
    (hr : retry < MAX_RETRANS) (hne : pn ≠ lp)
    (hbp : build_packet file off0 pn = some (p, off2))
    (ht : rdByte ch pos = ReadEvent.timeout) :
    sendLoop ch file (fuel + 1) retry ⟨pn, lp, off0, pk⟩ pos =
      ((sendLoop ch file fuel (retry + 1) ⟨pn, pn, off2, p⟩ (pos + 1)).1,
       Ev.tick :: pktEvs p 0
         ++ (sendLoop ch file fuel (retry + 1) ⟨pn, pn, off2, p⟩ (pos + 1)).2.1,
       RECEIVE_TIMEOUT ::
         (sendLoop ch file fuel (retry + 1) ⟨pn, pn, off2, p⟩ (pos + 1)).2.2) := by
  simp [sendLoop, hr, hne, hbp, send_packet, ht]

/-- One fresh-build iteration acknowledged with ACK: retry is set to 0,
packetno advances, and the for increment turns the 0 into a 1 for the
next iteration. -/
lemma sendLoop_build_ack (ch : Chan) (file : List Nat) (fuel retry : Nat)
    (pn lp off0 : Nat) (pk : List Nat) (pos : Nat) (p : List Nat) (off2 : Nat)
    (hr : retry < MAX_RETRANS) (hne : pn ≠ lp)
    (hbp : build_packet file off0 pn = some (p, off2))
    (hack : rdByte ch pos = ReadEvent.byte ACK) :
    sendLoop ch file (fuel + 1) retry ⟨pn, lp, off0, pk⟩ pos =
      ((sendLoop ch file fuel 1 ⟨pn + 1, pn, off2, p⟩ (pos + 1)).1,
       Ev.tick :: pktEvs p 0
         ++ (sendLoop ch file fuel 1 ⟨pn + 1, pn, off2, p⟩ (pos + 1)).2.1,
       RECEIVE_TIMEOUT ::
         (sendLoop ch file fuel 1 ⟨pn + 1, pn, off2, p⟩ (pos + 1)).2.2) := by
  simp [sendLoop, hr, hne, hbp, send_packet, hack, ACK]

/-- One fresh-build iteration answered by a doubled CAN: one ACK byte is
written, a drain follows, and the loop returns the remote-cancel exit. -/
lemma sendLoop_build_canCan (ch : Chan) (file : List Nat) (fuel retry : Nat)
    (pn lp off0 : Nat) (pk : List Nat) (pos : Nat) (p : List Nat) (off2 : Nat)
    (hr : retry < MAX_RETRANS) (hne : pn ≠ lp)
    (hbp : build_packet file off0 pn = some (p, off2))
    (hc1 : rdByte ch pos = ReadEvent.byte CAN)
    (hc2 : rdByte ch (pos + 1) = ReadEvent.byte CAN) :
    sendLoop ch file (fuel + 1) retry ⟨pn, lp, off0, pk⟩ pos =
      (LoopExit.remoteCancel, Ev.tick :: pktEvs p 0 ++ [Ev.wr ACK, Ev.drain],
       [RECEIVE_TIMEOUT, 1]) := by
  simp [sendLoop, hr, hne, hbp, send_packet, hc1, hc2, ACK, CAN]

/-- The events of k consecutive resend iterations whose acknowledgment
reads all time out, starting at retry counter r. -/
def tmoEvs (p : List Nat) : Nat → Nat → List Ev
  | 0, _ => []
  | k + 1, r => (Ev.tick :: Ev.retrying r :: pktEvs p 0) ++ tmoEvs p k (r + 1)

/-- Running the send loop against a channel that always times out from
position pos onward: the remaining retry budget k is consumed by k
resend transmissions and the loop exits exhausted. -/
lemma sendLoop_allTmo (ch : Chan) (file : List Nat) :
    ∀ k fuel retry rg pos, retry + k = MAX_RETRANS → k ≤ fuel →
      rg.packetno = rg.lastpacket →
      (∀ n, pos ≤ n → rdByte ch n = ReadEvent.timeout) →
      sendLoop ch file fuel retry rg pos =
        (LoopExit.exhausted, tmoEvs rg.pkt k retry, List.replicate k RECEIVE_TIMEOUT) := by
  intro k
  induction k with
  | zero =>
    intro fuel retry rg pos hk _ _ _
    have hr : ¬ retry < MAX_RETRANS := by omega
    simp [sendLoop_not_lt ch file fuel retry rg pos hr, tmoEvs]
  | succ k ih =>
    intro fuel retry rg pos hk hf heq htm
    have hr : retry < MAX_RETRANS := by
      simp only [MAX_RETRANS] at hk ⊢
      omega
    cases fuel with
    | zero => omega
    | succ f =>
      rw [sendLoop_resend_timeout ch file f retry rg pos hr heq (htm pos (le_refl pos))]
      rw [ih f (retry + 1) rg (pos + 1) (by omega) (by omega) heq
        (fun n hn => htm n (by omega))]
      simp [tmoEvs, List.replicate_succ]

lemma writtenBytes_tmoEvs (p : List Nat) :
    ∀ k r, writtenBytes (tmoEvs p k r) =
      (List.replicate k (p.map (fun b => b % 256))).flatten := by
  intro k
  induction k with
  | zero => intro r; simp [tmoEvs, writtenBytes]
  | succ k ih =>
    intro r
    rw [tmoEvs, writtenBytes_append]
    have h1 : writtenBytes (Ev.tick :: Ev.retrying r :: pktEvs p 0)
        = writtenBytes (pktEvs p 0) := by
      simp [writtenBytes]
    rw [h1, writtenBytes_pktEvs, ih, List.replicate_succ]
    simp


/-! Concrete channels used by the claim theorems. -/

/-- A channel that delivers the confirming NAK, then fails the first
acknowledgment read with a non-timeout channel error, then answers the
next read (the EOT acknowledgment read of the finishing phase) with
ACK. -/
def ch1 : Chan :=
  chanOfList [ReadEvent.byte NAK, ReadEvent.chanError, ReadEvent.byte ACK]

/-- A channel that delivers the confirming NAK and then times out on
every acknowledgment read. -/
def ch2 : Chan :=
  ⟨fun n => if n = 0 then ReadEvent.byte NAK else ReadEvent.timeout⟩

/-- A channel that delivers the confirming NAK and then a doubled CAN in
place of the first acknowledgment. -/
def ch4a : Chan :=
  chanOfList [ReadEvent.byte NAK, ReadEvent.byte CAN, ReadEvent.byte CAN]

/-- A channel that delivers the confirming NAK and then an ACK for the
first EOT of the finishing phase. -/
def ch4b : Chan :=
  chanOfList [ReadEvent.byte NAK, ReadEvent.byte ACK]

/-- A channel whose first byte during the initial NAK wait is 0x43, the
CRC-mode request character. -/
def ch5cex : Chan :=
  chanOfList [ReadEvent.byte 0x43]

/-- A channel that delivers the confirming NAK and then a doubled CAN in
place of the first acknowledgment. -/
def ch6 : Chan :=
  chanOfList [ReadEvent.byte NAK, ReadEvent.byte CAN, ReadEvent.byte CAN]

/-- The echo of one boot-pattern transmission. -/
def echoPat : List ReadEvent := boot_pattern.map ReadEvent.byte

/-- A channel that echoes each of the first three boot-pattern
transmissions back and, after the third, answers with NAK. -/
def ch7 : Chan :=
  chanOfList (echoPat ++ [ReadEvent.timeout] ++ echoPat ++ [ReadEvent.timeout]
    ++ echoPat ++ [ReadEvent.byte NAK])

/-- A channel that delivers the confirming NAK, acknowledges the first
packet with ACK, and then times out on every later read. -/
def ch9 : Chan :=
  ⟨fun n => if n = 0 then ReadEvent.byte NAK
            else if n = 1 then ReadEvent.byte ACK
            else ReadEvent.timeout⟩

/-- The first packet the sender builds for a file: packet number 1 at
file offset 0. -/
def firstPacket (file : List Nat) : List Nat :=
  match build_packet file 0 1 with
  | some po => po.1
  | none => []

/-- The second packet the sender builds for a file of more than 128
bytes: packet number 2 at file offset 128. -/
def secondPacket (file : List Nat) : List Nat :=
  match build_packet file 128 2 with
  | some po => po.1
  | none => []

set_option maxRecDepth 100000

/-- C1.  The claim states that a non-timeout channel error on the
acknowledgment read aborts the transfer, never reaching the finishing
phase and never reporting success.  The code instead breaks out of the
send loop, falls past the retry check into the finishing phase, writes
EOT, and on an ACK returns overall success: with channel ch1 (NAK, then
a channel error on the acknowledgment read of packet 1, then ACK) the
transfer reports ok and an EOT byte is written after the error. -/
theorem C1_channel_error_reaches_finishing :
    (xmodem_send ch1 [0] 10).1 = XRes.ok ∧
    Ev.wr EOT ∈ (xmodem_send ch1 [0] 10).2.1 := by
  decide

/-- C4.  The claim states that the post-CAN read of the sending loop and
the EOT acknowledgment reads of the finishing phase use a 1-second
timeout.  read_byte takes its timeout in microseconds and ONE_SECOND_US
is 1000000, but both call sites pass the literal 1, a one-microsecond
timeout: the recorded timeout arguments end in 1, not ONE_SECOND_US. -/
theorem C4_one_microsecond_timeout :
    (xmodem_send ch4a [0] 10).2.2 = [RECEIVE_TIMEOUT, RECEIVE_TIMEOUT, 1] ∧
    (xmodem_send ch4b [] 10).2.2 = [RECEIVE_TIMEOUT, 1] ∧
    (1 : Nat) ≠ ONE_SECOND_US := by
  decide

/-- C5 counterexample.  The claim states that every byte other than NAK
and CAN received during the initial NAK wait triggers a cancel signal of
three CAN bytes.  The byte 0x43 is neither NAK nor CAN, yet wait_for_nak
fails on it without writing anything at all: no CAN byte is issued. -/
theorem C5_crc_byte_sends_no_cancel :
    (wait_for_nak ch5cex 0).1 = WRes.fail ∧
    writtenBytes (wait_for_nak ch5cex 0).2.1 = [] ∧
    Ev.wr CAN ∉ (wait_for_nak ch5cex 0).2.1 := by
  decide

/-- C7.  Against a channel that echoes all three boot-pattern
transmissions and then answers NAK, send_boot_pattern returns ready,
emits no unexpected-byte progress event (every echoed byte is a member
of the pattern and is ignored), and writes the pattern exactly three
times. -/
theorem C7_echoed_pattern_ignored :
    (send_boot_pattern ch7 (fun _ => 0) PATTERN_SEND_TIMEOUT 5 40).1 = BootRes.ready ∧
    ((send_boot_pattern ch7 (fun _ => 0) PATTERN_SEND_TIMEOUT 5 40).2.1.countP fun e =>
        match e with
        | Ev.unexpectedByte _ => true
        | _ => false) = 0 ∧
    writtenBytes (send_boot_pattern ch7 (fun _ => 0) PATTERN_SEND_TIMEOUT 5 40).2.1 =
      boot_pattern ++ boot_pattern ++ boot_pattern := by
  decide


/-- C3.  Every packet built by build_packet for a packet number n in
[0,255] is well-formed: the sequence byte at offset 1 is n, the
complement byte at offset 2 is 255 - n (the bitwise NOT of the sequence
byte truncated to one byte), the payload is exactly 128 bytes, and the
trailing checksum byte is the sum of the 128 payload bytes modulo
256. -/
theorem C3_packet_wellformed (file : List Nat) (off n : Nat) (hn : n ≤ 255)
    (p : List Nat) (off2 : Nat)
    (h : build_packet file off n = some (p, off2)) :
    ∃ payload : List Nat, payload.length = 128 ∧
      p = SOH :: n :: (255 - n) :: (payload ++ [payload.sum % 256]) := by
  have hlt : n < 256 := by omega
  have hmod : n % 256 = n := Nat.mod_eq_of_lt hlt
  simp only [build_packet] at h
  by_cases hz : (read_block file off 128).1 = 0
  · rw [if_pos hz] at h
    exact absurd h (by simp)
  · rw [if_neg hz] at h
    rw [Option.some.injEq, Prod.mk.injEq] at h
    obtain ⟨hp, ho⟩ := h
    refine ⟨(read_block file off 128).2, ?_, ?_⟩
    · simp only [read_block, List.length_append, List.length_take,
        List.length_drop, List.length_replicate]
      omega
    · rw [← hp, hmod, uchar_neg n hlt, chksumOf_eq]

/-- The packet built for the one-byte file [7] at packet number 1. -/
def pkt7 : List Nat := 1 :: 1 :: 254 :: (([7] ++ List.replicate 127 0) ++ [7])

/-- Witness for C3 at the one-byte file [7] and packet number 1. -/
theorem C3_packet_wellformed_witness :
    build_packet [7] 0 1 = some (pkt7, 1) ∧ (1 : Nat) ≤ 255 ∧
    (∃ payload : List Nat, payload.length = 128 ∧
      pkt7 = SOH :: 1 :: (255 - 1) :: (payload ++ [payload.sum % 256])) :=
  ⟨by decide, by decide,
   C3_packet_wellformed [7] 0 1 (by decide) pkt7 1 (by decide)⟩

/-- C5 amended.  During the initial NAK wait the sender cancels (three
CAN bytes written by cancel_send) and fails on every received byte other
than NAK, CAN, and the CRC-mode request 0x43; on 0x43 it fails without
issuing the cancel signal. -/
theorem C5_unexpected_byte_cancels (ch : Chan) (pos b : Nat)
    (hread : rdByte ch pos = ReadEvent.byte b)
    (h1 : b ≠ NAK) (h2 : b ≠ CAN) :
    (wait_for_nak ch pos).1 = WRes.fail ∧
    writtenBytes (wait_for_nak ch pos).2.1 =
      (if b = 0x43 then [] else [CAN, CAN, CAN]) := by
  by_cases h3 : b = 0x43
  · subst h3
    simp [wait_for_nak, hread, writtenBytes]
  · simp [wait_for_nak, hread, h1, h2, h3, cancel_send, writtenBytes]

/-- The channel delivering the single unexpected byte 7. -/
def ch5w : Chan := chanOfList [ReadEvent.byte 7]

/-- Witness for the amended C5 at the unexpected byte 7. -/
theorem C5_unexpected_byte_cancels_witness :
    rdByte ch5w 0 = ReadEvent.byte 7 ∧ (7 : Nat) ≠ NAK ∧ (7 : Nat) ≠ CAN ∧
    ((wait_for_nak ch5w 0).1 = WRes.fail ∧
     writtenBytes (wait_for_nak ch5w 0).2.1 =
       (if (7 : Nat) = 0x43 then [] else [CAN, CAN, CAN])) :=
  ⟨by decide, by decide, by decide,
   C5_unexpected_byte_cancels ch5w 0 7 (by decide) (by decide) (by decide)⟩

/-- C10.  During the initial NAK wait, a CAN followed within the
one-second window by anything other than a second CAN (another byte, a
timeout, or even a failed read) makes wait_for_nak succeed: both reads
are consumed (two timeout entries are recorded, the second with
ONE_SECOND_US), nothing is written, and the sender proceeds to the
sending loop; the byte after the CAN is never re-examined. -/
theorem C10_can_then_non_can (ch : Chan) (pos : Nat)
    (h1 : rdByte ch pos = ReadEvent.byte CAN)
    (h2 : rdByte ch (pos + 1) ≠ ReadEvent.byte CAN) :
    wait_for_nak ch pos = (WRes.ok, [], [RECEIVE_TIMEOUT, ONE_SECOND_US]) := by
  have d1 : ¬ (CAN = 0x43) := by decide
  have d2 : ¬ (CAN = NAK) := by decide
  cases e : rdByte ch (pos + 1) with
  | byte c2 =>
    have hc2 : ¬ c2 = CAN := fun hh => h2 (by rw [e, hh])
    simp [wait_for_nak, h1, d1, d2, e, hc2]
  | timeout => simp [wait_for_nak, h1, d1, d2, e]
  | chanError => simp [wait_for_nak, h1, d1, d2, e]

/-- The channel delivering CAN and then the byte 0. -/
def ch10w : Chan := chanOfList [ReadEvent.byte CAN, ReadEvent.byte 0]

/-- Witness for C10: CAN followed by the byte 0. -/
theorem C10_can_then_non_can_witness :
    wait_for_nak ch10w 0 = (WRes.ok, [], [RECEIVE_TIMEOUT, ONE_SECOND_US]) :=
  C10_can_then_non_can ch10w 0 (by decide) (by decide)


/-- Unfolding xmodem_send when the handshake NAK arrives first and the
send loop exits exhausted: cancel_send runs and the transfer fails. -/
lemma xmodem_send_exhausted (ch : Chan) (file : List Nat) (fuel : Nat)
    (evs2 : List Ev) (ts2 : List Nat)
    (hw : wait_for_nak ch 0 = (WRes.ok, [], [RECEIVE_TIMEOUT]))
    (hl : sendLoop ch file fuel 0 ⟨1, 0, 0, List.replicate 132 0⟩ 1 =
      (LoopExit.exhausted, evs2, ts2)) :
    xmodem_send ch file fuel =
      (XRes.fail, evs2 ++ cancel_send, RECEIVE_TIMEOUT :: ts2) := by
  simp only [xmodem_send, hw, List.length_cons, List.length_nil, Nat.zero_add]
  rw [hl]
  rfl

/-- Unfolding xmodem_send when the handshake NAK arrives first and the
send loop returns the remote-cancel exit. -/
lemma xmodem_send_remoteCancel (ch : Chan) (file : List Nat) (fuel : Nat)
    (evs2 : List Ev) (ts2 : List Nat)
    (hw : wait_for_nak ch 0 = (WRes.ok, [], [RECEIVE_TIMEOUT]))
    (hl : sendLoop ch file fuel 0 ⟨1, 0, 0, List.replicate 132 0⟩ 1 =
      (LoopExit.remoteCancel, evs2, ts2)) :
    xmodem_send ch file fuel = (XRes.fail, evs2, RECEIVE_TIMEOUT :: ts2) := by
  simp only [xmodem_send, hw, List.length_cons, List.length_nil, Nat.zero_add]
  rw [hl]
  rfl

/-- C2.  Against a channel whose acknowledgment reads always time out,
the sender transmits the identical bytes of the first packet exactly
MAX_RETRANS (10) times, then writes the three-CAN cancel signal and the
transfer fails. -/
theorem C2_retry_exhausted (file : List Nat) (h : 0 < file.length)
    (hb : ∀ b ∈ file, b < 256) :
    (xmodem_send ch2 file 10).1 = XRes.fail ∧
    writtenBytes (xmodem_send ch2 file 10).2.1 =
      (List.replicate MAX_RETRANS (firstPacket file)).flatten ++ [CAN, CAN, CAN] := by
  have hw : wait_for_nak ch2 0 = (WRes.ok, [], [RECEIVE_TIMEOUT]) := by decide
  have hbp : build_packet file 0 1 =
      some (packetOf file 0 1, 0 + (read_block file 0 128).1) :=
    build_packet_pos file 0 1 h
  have htm : ∀ n, 1 ≤ n → rdByte ch2 n = ReadEvent.timeout := by
    intro n hn
    have hn0 : ¬ n = 0 := by omega
    simp [rdByte, ch2, hn0]
  have hstep := sendLoop_build_timeout ch2 file 9 0 1 0 0 (List.replicate 132 0) 1
    (packetOf file 0 1) (0 + (read_block file 0 128).1)
    (by decide) (by decide) hbp (htm 1 (by omega))
  have hall := sendLoop_allTmo ch2 file 9 9 (0 + 1)
    ⟨1, 1, 0 + (read_block file 0 128).1, packetOf file 0 1⟩ (1 + 1)
    (by decide) (by omega) rfl (fun n hn => htm n (by omega))
  have hloop : sendLoop ch2 file 10 0 ⟨1, 0, 0, List.replicate 132 0⟩ 1 =
      (LoopExit.exhausted,
       Ev.tick :: pktEvs (packetOf file 0 1) 0 ++ tmoEvs (packetOf file 0 1) 9 1,
       RECEIVE_TIMEOUT :: List.replicate 9 RECEIVE_TIMEOUT) := by
    rw [show (10 : Nat) = 9 + 1 from rfl, hstep, hall]
  have hx := xmodem_send_exhausted ch2 file 10 _ _ hw hloop
  have hfp : firstPacket file = packetOf file 0 1 := by
    simp [firstPacket, hbp]
  have hmp : (packetOf file 0 1).map (fun b => b % 256) = packetOf file 0 1 :=
    map_mod_of_lt _ (packetOf_lt file 0 1 hb)
  constructor
  · rw [hx]
  · rw [hx]
    have hsplit : writtenBytes
        ((Ev.tick :: pktEvs (packetOf file 0 1) 0 ++ tmoEvs (packetOf file 0 1) 9 1)
          ++ cancel_send) =
        writtenBytes (pktEvs (packetOf file 0 1) 0)
          ++ writtenBytes (tmoEvs (packetOf file 0 1) 9 1)
          ++ writtenBytes cancel_send := by
      simp [writtenBytes]
    rw [hsplit, writtenBytes_pktEvs, writtenBytes_tmoEvs, hmp, hfp]
    simp [MAX_RETRANS, cancel_send, writtenBytes, List.replicate_succ]

/-- Witness for C2 at the one-byte file [3]. -/
theorem C2_retry_exhausted_witness :
    (xmodem_send ch2 [3] 10).1 = XRes.fail ∧
    writtenBytes (xmodem_send ch2 [3] 10).2.1 =
      (List.replicate MAX_RETRANS (firstPacket [3])).flatten ++ [CAN, CAN, CAN] :=
  C2_retry_exhausted [3] (by decide) (by decide)

/-- C6.  When the sending loop reads CAN twice in a row in place of the
acknowledgment of the first packet, the complete output of the transfer
is: the packet transmission, then exactly one ACK byte and a drain; the
transfer fails and no further packet bytes are transmitted. -/
theorem C6_double_can_cancels (file : List Nat) (h : 0 < file.length) :
    (xmodem_send ch6 file 10).1 = XRes.fail ∧
    (xmodem_send ch6 file 10).2.1 =
      Ev.tick :: pktEvs (firstPacket file) 0 ++ [Ev.wr ACK, Ev.drain] := by
  have hw : wait_for_nak ch6 0 = (WRes.ok, [], [RECEIVE_TIMEOUT]) := by decide
  have hbp : build_packet file 0 1 =
      some (packetOf file 0 1, 0 + (read_block file 0 128).1) :=
    build_packet_pos file 0 1 h
  have hloop : sendLoop ch6 file 10 0 ⟨1, 0, 0, List.replicate 132 0⟩ 1 =
      (LoopExit.remoteCancel,
       Ev.tick :: pktEvs (packetOf file 0 1) 0 ++ [Ev.wr ACK, Ev.drain],
       [RECEIVE_TIMEOUT, 1]) := by
    rw [show (10 : Nat) = 9 + 1 from rfl]
    exact sendLoop_build_canCan ch6 file 9 0 1 0 0 (List.replicate 132 0) 1
      (packetOf file 0 1) (0 + (read_block file 0 128).1)
      (by decide) (by decide) hbp (by decide) (by decide)
  have hx := xmodem_send_remoteCancel ch6 file 10 _ _ hw hloop
  have hfp : firstPacket file = packetOf file 0 1 := by
    simp [firstPacket, hbp]
  rw [hx, hfp]
  exact ⟨rfl, rfl⟩

/-- Witness for C6 at the one-byte file [9]. -/
theorem C6_double_can_cancels_witness :
    (xmodem_send ch6 [9] 10).1 = XRes.fail ∧
    (xmodem_send ch6 [9] 10).2.1 =
      Ev.tick :: pktEvs (firstPacket [9]) 0 ++ [Ev.wr ACK, Ev.drain] :=
  C6_double_can_cancels [9] (by decide)


/-- The 129-byte file of fives used as the concrete input for C9. -/
def f9cex : List Nat := List.replicate 129 5

/-- A small helper: the length of the flattening of n copies of a
list. -/
lemma length_flatten_replicate (n : Nat) (l : List Nat) :
    ((List.replicate n l).flatten).length = n * l.length := by
  induction n with
  | zero => simp
  | succ k ih =>
    simp only [List.replicate_succ, List.flatten_cons, List.length_append, ih]
    ring

/-- The complete trace of xmodem_send against ch9 (ACK for packet 1,
then timeouts) for any file longer than 128 bytes: packet 1 is sent once
and acknowledged; packet 2 is then transmitted 9 times (not 10, because
the ACK branch sets retry to 0 and the for increment immediately raises
it to 1) before the cancel signal, and the transfer fails. -/
lemma ch9_trace (file : List Nat) (h : 128 < file.length)
    (hb : ∀ b ∈ file, b < 256) :
    (xmodem_send ch9 file 20).1 = XRes.fail ∧
    writtenBytes (xmodem_send ch9 file 20).2.1 =
      firstPacket file ++ (List.replicate 9 (secondPacket file)).flatten
        ++ [CAN, CAN, CAN] := by
  have h0 : 0 < file.length := by omega
  have hw : wait_for_nak ch9 0 = (WRes.ok, [], [RECEIVE_TIMEOUT]) := by decide
  have hbp1 : build_packet file 0 1 =
      some (packetOf file 0 1, 0 + (read_block file 0 128).1) :=
    build_packet_pos file 0 1 h0
  have hoff : (0 + (read_block file 0 128).1) = 128 := by
    simp only [read_block, List.length_take, List.length_drop]
    omega
  have hbp2 : build_packet file (0 + (read_block file 0 128).1) (1 + 1) =
      some (packetOf file 128 2, 128 + (read_block file 128 128).1) := by
    rw [hoff]
    exact build_packet_pos file 128 2 h
  have htm : ∀ n, (1 + 1) + 1 ≤ n → rdByte ch9 n = ReadEvent.timeout := by
    intro n hn
    have hn0 : ¬ n = 0 := by omega
    have hn1 : ¬ n = 1 := by omega
    simp [rdByte, ch9, hn0, hn1]
  have hstep1 := sendLoop_build_ack ch9 file 19 0 1 0 0 (List.replicate 132 0) 1
    (packetOf file 0 1) (0 + (read_block file 0 128).1)
    (by decide) (by decide) hbp1 (by decide)
  have hstep2 := sendLoop_build_timeout ch9 file 18 1 (1 + 1) 1
    (0 + (read_block file 0 128).1) (packetOf file 0 1) (1 + 1)
    (packetOf file 128 2) (128 + (read_block file 128 128).1)
    (by decide) (by decide) hbp2 (by decide)
  have hall := sendLoop_allTmo ch9 file 8 18 (1 + 1)
    ⟨1 + 1, 1 + 1, 128 + (read_block file 128 128).1, packetOf file 128 2⟩
    ((1 + 1) + 1) (by decide) (by omega) rfl (fun n hn => htm n hn)
  have hloop : sendLoop ch9 file 20 0 ⟨1, 0, 0, List.replicate 132 0⟩ 1 =
      (LoopExit.exhausted,
       Ev.tick :: pktEvs (packetOf file 0 1) 0
         ++ (Ev.tick :: pktEvs (packetOf file 128 2) 0
               ++ tmoEvs (packetOf file 128 2) 8 (1 + 1)),
       RECEIVE_TIMEOUT :: (RECEIVE_TIMEOUT :: List.replicate 8 RECEIVE_TIMEOUT)) := by
    rw [show (20 : Nat) = 19 + 1 from rfl, hstep1,
        show (19 : Nat) = 18 + 1 from rfl, hstep2, hall]
  have hx := xmodem_send_exhausted ch9 file 20 _ _ hw hloop
  have hfp : firstPacket file = packetOf file 0 1 := by
    simp [firstPacket, hbp1]
  have hsp : secondPacket file = packetOf file 128 2 := by
    simp [secondPacket, build_packet_pos file 128 2 h]
  have hmp1 : (packetOf file 0 1).map (fun b => b % 256) = packetOf file 0 1 :=
    map_mod_of_lt _ (packetOf_lt file 0 1 hb)
  have hmp2 : (packetOf file 128 2).map (fun b => b % 256) = packetOf file 128 2 :=
    map_mod_of_lt _ (packetOf_lt file 128 2 hb)
  constructor
  · rw [hx]
  · rw [hx]
    have hsplit : writtenBytes
        ((Ev.tick :: pktEvs (packetOf file 0 1) 0
            ++ (Ev.tick :: pktEvs (packetOf file 128 2) 0
                  ++ tmoEvs (packetOf file 128 2) 8 (1 + 1)))
          ++ cancel_send) =
        writtenBytes (pktEvs (packetOf file 0 1) 0)
          ++ (writtenBytes (pktEvs (packetOf file 128 2) 0)
                ++ writtenBytes (tmoEvs (packetOf file 128 2) 8 (1 + 1)))
          ++ writtenBytes cancel_send := by
      simp [writtenBytes]
    rw [hsplit, writtenBytes_pktEvs, writtenBytes_pktEvs, writtenBytes_tmoEvs,
      hmp1, hmp2, hfp, hsp]
    simp [cancel_send, writtenBytes, List.replicate_succ]

/-- C9 counterexample.  The claim implies that after the ACK for packet
1 the next packet enjoys the full MAX_RETRANS (10) transmission budget,
the same as the first packet.  Against ch9 (ACK for packet 1, then
timeouts) and the 129-byte file f9cex, packet 2 is transmitted only 9
times before the cancel signal, not 10: the written bytes are the first
packet once, the second packet 9 times, then the three CAN bytes — and
they differ from the 10-transmission trace the claim would require. -/
theorem C9_second_packet_nine_attempts :
    writtenBytes (xmodem_send ch9 f9cex 20).2.1 =
      firstPacket f9cex ++ (List.replicate 9 (secondPacket f9cex)).flatten
        ++ [CAN, CAN, CAN] ∧
    writtenBytes (xmodem_send ch9 f9cex 20).2.1 ≠
      firstPacket f9cex ++ (List.replicate 10 (secondPacket f9cex)).flatten
        ++ [CAN, CAN, CAN] := by
  have h1 := ch9_trace f9cex (by decide) (by decide)
  refine ⟨h1.2, ?_⟩
  rw [h1.2]
  intro heq
  have hlen := congrArg List.length heq
  have hL2 : (secondPacket f9cex).length = 132 := by decide
  simp only [List.length_append, length_flatten_replicate, hL2,
    List.length_cons, List.length_nil] at hlen
  omega

/-- C9 amended.  On the ACK for packet 1 the sender sets the retry
counter to 0 and advances the packet number; however the for-loop
increment immediately raises the counter to 1, so the following packet
is transmitted at most MAX_RETRANS - 1 (9) times before the transfer
fails with the cancel signal, one transmission fewer than the first
packet receives. -/
theorem C9_after_ack_reduced_budget (file : List Nat) (h : 128 < file.length)
    (hb : ∀ b ∈ file, b < 256) :
    (xmodem_send ch9 file 20).1 = XRes.fail ∧
    writtenBytes (xmodem_send ch9 file 20).2.1 =
      firstPacket file
        ++ (List.replicate (MAX_RETRANS - 1) (secondPacket file)).flatten
        ++ [CAN, CAN, CAN] := by
  have h1 := ch9_trace file h hb
  have h9 : MAX_RETRANS - 1 = 9 := by decide
  rw [h9]
  exact h1

/-- Witness for the amended C9 at a 130-byte file of ones. -/
theorem C9_after_ack_reduced_budget_witness :
    (xmodem_send ch9 (List.replicate 130 1) 20).1 = XRes.fail ∧
    writtenBytes (xmodem_send ch9 (List.replicate 130 1) 20).2.1 =
      firstPacket (List.replicate 130 1)
        ++ (List.replicate (MAX_RETRANS - 1) (secondPacket (List.replicate 130 1))).flatten
        ++ [CAN, CAN, CAN] :=
  C9_after_ack_reduced_budget (List.replicate 130 1) (by decide) (by decide)


/-- The sequence of padded payload buffers that successive read_block
calls of build_packet deliver over the remaining source bytes, until
read_block reports end of source (a zero-byte read): each step takes the
128-byte zero-padded block and advances by the number of bytes actually
read. -/
def sentPayloads (rem : List Nat) : List (List Nat) :=
  if _h : rem.length = 0 then []
  else (read_block rem 0 128).2 :: sentPayloads (rem.drop (read_block rem 0 128).1)
termination_by rem.length
decreasing_by
  simp only [read_block, List.length_drop, List.length_take, List.drop_zero]
  omega

lemma sentPayloads_nil (rem : List Nat) (h : rem.length = 0) :
    sentPayloads rem = [] := by
  rw [sentPayloads]
  simp [h]

lemma sentPayloads_cons (rem : List Nat) (h : ¬ rem.length = 0) :
    sentPayloads rem =
      (read_block rem 0 128).2
        :: sentPayloads (rem.drop (read_block rem 0 128).1) := by
  rw [sentPayloads]
  simp [h]

lemma sentPayloads_ne_nil (rem : List Nat) (h : ¬ rem.length = 0) :
    sentPayloads rem ≠ [] := by
  rw [sentPayloads_cons rem h]
  simp

/-- Concatenating all payload blocks yields the source bytes followed by
some zero padding. -/
lemma sentPayloads_join (N : Nat) : ∀ rem : List Nat, rem.length ≤ N →
    ∃ k, (sentPayloads rem).flatten = rem ++ List.replicate k 0 := by
  induction N with
  | zero =>
    intro rem hlen
    have h0 : rem.length = 0 := by omega
    rw [sentPayloads_nil rem h0]
    have he : rem = [] := List.length_eq_zero.mp h0
    exact ⟨0, by simp [he]⟩
  | succ N ih =>
    intro rem hlen
    by_cases h0 : rem.length = 0
    · rw [sentPayloads_nil rem h0]
      have he : rem = [] := List.length_eq_zero.mp h0
      exact ⟨0, by simp [he]⟩
    · rw [sentPayloads_cons rem h0]
      have hg : (read_block rem 0 128).1 = min 128 rem.length := by
        simp [read_block]
      have hd : (read_block rem 0 128).2 =
          rem.take 128 ++ List.replicate (128 - min 128 rem.length) 0 := by
        simp [read_block]
      obtain ⟨k, hk⟩ := ih (rem.drop (read_block rem 0 128).1) (by
        simp only [List.length_drop]
        have h1 : 1 ≤ (read_block rem 0 128).1 := by
          rw [hg]; omega
        omega)
      rw [List.flatten_cons, hk, hg, hd]
      by_cases hL : 128 ≤ rem.length
      · have hmin : min 128 rem.length = 128 := by omega
        rw [hmin]
        refine ⟨k, ?_⟩
        simp only [Nat.sub_self, List.replicate_zero, List.append_nil]
        rw [← List.append_assoc, List.take_append_drop]
      · have hmin : min 128 rem.length = rem.length := by omega
        rw [hmin]
        refine ⟨128 - rem.length + k, ?_⟩
        rw [List.take_of_length_le (by omega), List.drop_length]
        rw [List.replicate_add]
        simp

/-- For a source whose length is not a multiple of 128, the last payload
block is the remaining source bytes zero-padded to 128. -/
lemma sentPayloads_getLast (N : Nat) : ∀ rem : List Nat, rem.length ≤ N →
    ¬ rem.length % 128 = 0 →
    (sentPayloads rem).getLast? =
      some (rem.drop (128 * (rem.length / 128))
            ++ List.replicate (128 - rem.length % 128) 0) := by
  induction N with
  | zero =>
    intro rem hlen hmod
    omega
  | succ N ih =>
    intro rem hlen hmod
    have h0 : ¬ rem.length = 0 := by omega
    rw [sentPayloads_cons rem h0]
    have hg : (read_block rem 0 128).1 = min 128 rem.length := by
      simp [read_block]
    have hd : (read_block rem 0 128).2 =
        rem.take 128 ++ List.replicate (128 - min 128 rem.length) 0 := by
      simp [read_block]
    by_cases hL : 128 ≤ rem.length
    · have hmin : min 128 rem.length = 128 := by omega
      have hrec_len : (rem.drop (read_block rem 0 128).1).length =
          rem.length - 128 := by
        rw [hg, hmin, List.length_drop]
      have hne : ¬ (rem.drop (read_block rem 0 128).1).length = 0 := by
        rw [hrec_len]
        omega
      obtain ⟨y, ys, hys⟩ : ∃ y ys,
          sentPayloads (rem.drop (read_block rem 0 128).1) = y :: ys := by
        cases e : sentPayloads (rem.drop (read_block rem 0 128).1) with
        | nil => exact absurd e (sentPayloads_ne_nil _ hne)
        | cons y ys => exact ⟨y, ys, rfl⟩
      rw [hys, List.getLast?_cons_cons, ← hys]
      rw [ih (rem.drop (read_block rem 0 128).1) (by rw [hrec_len]; omega)
        (by rw [hrec_len]; omega)]
      rw [hrec_len, hg, hmin, List.drop_drop]
      have e1 : 128 + 128 * ((rem.length - 128) / 128) = 128 * (rem.length / 128) := by
        omega
      have e2 : (rem.length - 128) % 128 = rem.length % 128 := by
        omega
      rw [e1, e2]
    · have hmin : min 128 rem.length = rem.length := by omega
      have hdrop_nil : rem.drop (read_block rem 0 128).1 = [] := by
        rw [hg, hmin]
        simp
      rw [hdrop_nil, sentPayloads_nil [] rfl, hd, hmin]
      have e1 : rem.take 128 = rem := List.take_of_length_le (by omega)
      have e2 : 128 * (rem.length / 128) = 0 := by omega
      have e3 : rem.length % 128 = rem.length := by omega
      rw [e1, e2, e3, List.drop_zero]
      rfl

/-- C8.  For every source file whose length is not a multiple of 128,
the final payload block is the remaining source bytes (those after the
last full 128-byte block, i.e. after 128 * (length / 128) bytes)
zero-padded to 128 bytes, and concatenating all payload blocks and
truncating to the original length reproduces the source exactly. -/
theorem C8_roundtrip (file : List Nat) (h : ¬ 128 ∣ file.length) :
    (sentPayloads file).getLast? =
      some (file.drop (128 * (file.length / 128))
            ++ List.replicate (128 - file.length % 128) 0) ∧
    ((sentPayloads file).flatten).take file.length = file := by
  have hmod : ¬ file.length % 128 = 0 := fun hm => h (Nat.dvd_of_mod_eq_zero hm)
  constructor
  · exact sentPayloads_getLast file.length file (le_refl _) hmod
  · obtain ⟨k, hk⟩ := sentPayloads_join file.length file (le_refl _)
    rw [hk]
    exact List.take_left file _

/-- Witness for C8 at the three-byte file [1, 2, 3]. -/
theorem C8_roundtrip_witness :
    ¬ (128 ∣ ([1, 2, 3] : List Nat).length) ∧
    ((sentPayloads [1, 2, 3]).getLast? =
        some (([1, 2, 3] : List Nat).drop (128 * (([1, 2, 3] : List Nat).length / 128))
              ++ List.replicate (128 - ([1, 2, 3] : List Nat).length % 128) 0) ∧
     ((sentPayloads [1, 2, 3]).flatten).take ([1, 2, 3] : List Nat).length = [1, 2, 3]) :=
  ⟨by decide, C8_roundtrip [1, 2, 3] (by decide)⟩

end Kwuartboot
